import Mathlib

/-!
Shallow embedding of `prepare_data.py` from the acat2017-rpvdl repository:
the parallel file-to-array conversion and event-selection pipeline
(`get_data`, `process_events`, `filter_delphes_to_numpy`, `merge_results`,
`process_files_parallel`, `main`), together with the data model of
column tables it operates on.

Numeric cell values are modelled by `Int` (the physics predicate functions
are abstract parameters, so the numeric carrier is irrelevant); Python
exceptions are modelled by `Except PyErr`; the `None` failure sentinel of a
per-file result is modelled by `Option`.
-/

namespace Rpvdl

/-- One cell of a column: a scalar number, a boolean, a ragged (per-event
variable-length) numeric sequence, or a string (used for `inputFile`). -/
inductive Val where
  | i (n : Int)
  | b (v : Bool)
  | r (xs : List Int)
  | s (v : String)
  deriving DecidableEq

/-- A column: one entry per row (per event, except the length-1 bookkeeping
columns). -/
abbrev Col := List Val

/-- A Python dict of numpy arrays: an association list from column name to
column, keys unique. -/
abbrev Table := List (String × Col)

/-- The key list of a table (Python `d.keys()`). -/
def Table.keys (t : Table) : List String := t.map Prod.fst

/-- Python `d[k]` as an optional lookup: the first pair with key `k`. -/
def Table.find? (t : Table) (k : String) : Option Col :=
  (List.find? (fun p => p.1 == k) t).map Prod.snd

/-- The Python exceptions that can escape the modelled code paths:
`KeyError(k)` from a dict lookup, and `ValueError` from numpy
(`np.vectorize` on size-0 input without `otypes`, `np.concatenate` of an
empty list). -/
inductive PyErr where
  | keyError (k : String)
  | valueError
  deriving DecidableEq

/-- Concatenation of a list of arrays (`np.concatenate`, modulo the
nonemptiness check made at the call site). -/
def concatAll {α : Type} (ls : List (List α)) : List α := ls.foldr (· ++ ·) []

/-- The list comprehension `[d[key] for d in dicts]` inside `merge_results`:
collects the `key` column of every dict, raising `KeyError` at the first
dict that lacks the key. -/
def collectCols (ds : List Table) (k : String) : Except PyErr (List Col) :=
  match ds with
  | [] => .ok []
  | d :: rest =>
    match d.find? k with
    | none => .error (.keyError k)
    | some c =>
      match collectCols rest k with
      | .error e => .error e
      | .ok cs => .ok (c :: cs)

/-- The `for key in keys` loop of `merge_results`, building the result dict:
for each key, gather every dict's column and concatenate
(`np.concatenate` raises `ValueError` on an empty list of arrays). -/
def mergeLoop (ds : List Table) (keys : List String) : Except PyErr Table :=
  match keys with
  | [] => .ok []
  | k :: rest =>
    match collectCols ds k with
    | .error e => .error e
    | .ok arrs =>
      if arrs.isEmpty then .error .valueError
      else
        match mergeLoop ds rest with
        | .error e => .error e
        | .ok t => .ok ((k, concatAll arrs) :: t)

/-- `merge_results(dicts)`: `dicts = filter(None, dicts)` drops every falsy
entry — both the `None` sentinels and (by Python truthiness) empty dicts —
then the key set is the union of the surviving dicts' keys (modelled as a
deduplicated list; Python set iteration order is arbitrary), and each key is
mapped to the concatenation of that key's per-dict arrays. -/
def merge_results (dicts : List (Option Table)) : Except PyErr Table :=
  let ds := (dicts.filterMap id).filter (fun d => !d.isEmpty)
  mergeLoop ds (concatAll (ds.map Table.keys)).dedup

/-- The per-file results surviving the sentinel-dropping step (the non-`None`
entries, as the spec describes it). -/
def survivors (dicts : List (Option Table)) : List Table := dicts.filterMap id

/-- The union of the column keys present in the surviving results. -/
def unionKeys (dicts : List (Option Table)) : List String :=
  (concatAll ((survivors dicts).map Table.keys)).dedup

/-- The merged table as the spec describes it: each key of the union mapped
to the concatenation, in input order, of that key's per-file arrays (a
surviving result lacking the key contributes nothing). -/
def mergeConcat (dicts : List (Option Table)) : Table :=
  (unionKeys dicts).map
    (fun k => (k, concatAll ((survivors dicts).map (fun d => (d.find? k).getD []))))

/-- The physics predicate functions imported from `physics_selections`.
The spec treats them as external collaborators "specified only by contract,
not reimplemented here", so they are abstract parameters of the pipeline:
`select_fatjets` maps one event's jet pt/eta arrays to the list of surviving
jet indices; `sum_fatjet_mass`, `fatjet_deta12` derive per-event scalars from
the surviving jets; `pass_sr4j`/`pass_sr5j` are the two signal-region
predicates over (jet count, summed mass, eta separation). -/
structure Physics where
  select_fatjets : List Int → List Int → List Nat
  sum_fatjet_mass : List Int → Int
  fatjet_deta12 : List Int → Int
  pass_sr4j : Nat → Int → Int → Bool
  pass_sr5j : Nat → Int → Int → Bool

/-- The dict produced by `get_data` on a successful read: the fixed branch
remapping of `filter_delphes_to_numpy` yields exactly these thirteen named
columns, one entry per event (`eventNumber`/`proc` scalar, the rest ragged). -/
structure RawData where
  eventNumber : List Int
  proc : List Int
  clusEta : List (List Int)
  clusPhi : List (List Int)
  clusE : List (List Int)
  clusEM : List (List Int)
  fatJetPt : List (List Int)
  fatJetEta : List (List Int)
  fatJetPhi : List (List Int)
  fatJetM : List (List Int)
  trackPt : List (List Int)
  trackEta : List (List Int)
  trackPhi : List (List Int)
  deriving DecidableEq

/-- All thirteen reader columns have the same number of rows `n` (the
external reader returns event-aligned branches). -/
def RawData.uniform (d : RawData) (n : Nat) : Prop :=
  d.eventNumber.length = n ∧ d.proc.length = n ∧
  d.clusEta.length = n ∧ d.clusPhi.length = n ∧
  d.clusE.length = n ∧ d.clusEM.length = n ∧
  d.fatJetPt.length = n ∧ d.fatJetEta.length = n ∧
  d.fatJetPhi.length = n ∧ d.fatJetM.length = n ∧
  d.trackPt.length = n ∧ d.trackEta.length = n ∧ d.trackPhi.length = n

instance (d : RawData) (n : Nat) : Decidable (RawData.uniform d n) := by
  unfold RawData.uniform; infer_instance

/-- Modelled from the spec: `physics_selections.filter_objects` is not under
`src/`; per spec §4.2 it sub-selects, per event, the object-level entries of a
ragged column according to that event's surviving-index list. -/
def filter_objects (idx : List (List Nat)) (col : List (List Int)) : List (List Int) :=
  List.zipWith (fun is xs => is.filterMap (fun i => xs.get? i)) idx col

/-- Modelled from the spec: `physics_selections.filter_events` is not under
`src/`; per spec §4.2 it applies a boolean per-event mask to a column,
keeping the rows where the mask is true (numpy boolean-mask indexing). -/
def filter_events (mask : List Bool) (col : List α) : List α :=
  ((mask.zip col).filter Prod.fst).map Prod.snd

/-- Modelled from the spec: `physics_selections.is_baseline_event` is not
under `src/`; per the spec glossary, baseline selection requires at least one
object to survive object-level selection, so the predicate on the event's
object-filtered jet-pt array is nonemptiness. -/
def is_baseline_event (pts : List Int) : Bool := !pts.isEmpty

/-- Elementwise application of a ternary function over three equal-length
arrays (`np.vectorize(f)(a, b, c)` on nonempty inputs). -/
def zipWith3 (f : α → β → γ → δ) : List α → List β → List γ → List δ
  | a :: as, b :: bs, c :: cs => f a b c :: zipWith3 f as bs cs
  | _, _, _ => []

/-- `jetIdx = vec_select_fatjets(fatJetPt, fatJetEta)` in `process_events`:
the per-event surviving jet indices. -/
def jetIdx (P : Physics) (d : RawData) : List (List Nat) :=
  List.zipWith P.select_fatjets d.fatJetPt d.fatJetEta

/-- The object-filtered `fatJetPt` (first component of the
`filter_objects` call in `process_events`). -/
def selectedPt (P : Physics) (d : RawData) : List (List Int) :=
  filter_objects (jetIdx P d) d.fatJetPt

/-- The object-filtered `fatJetEta`. -/
def selectedEta (P : Physics) (d : RawData) : List (List Int) :=
  filter_objects (jetIdx P d) d.fatJetEta

/-- The object-filtered `fatJetPhi`. -/
def selectedPhi (P : Physics) (d : RawData) : List (List Int) :=
  filter_objects (jetIdx P d) d.fatJetPhi

/-- The object-filtered `fatJetM`. -/
def selectedM (P : Physics) (d : RawData) : List (List Int) :=
  filter_objects (jetIdx P d) d.fatJetM

/-- `skimIdx = np.vectorize(is_baseline_event)(fatJetPt)`: the baseline
event mask. -/
def baselineMask (P : Physics) (d : RawData) : List Bool :=
  (selectedPt P d).map is_baseline_event

/-- `num_baseline = np.sum(skimIdx)`: the number of events passing the
baseline mask. -/
def nBaseline (P : Physics) (d : RawData) : Nat :=
  (baselineMask P d).count true

/-- The event-filtered `fatJetPt` (after the `filter_events` call). -/
def skimmedPt (P : Physics) (d : RawData) : List (List Int) :=
  filter_events (baselineMask P d) (selectedPt P d)

/-- The event-filtered `fatJetEta`. -/
def skimmedEta (P : Physics) (d : RawData) : List (List Int) :=
  filter_events (baselineMask P d) (selectedEta P d)

/-- The event-filtered `fatJetPhi`. -/
def skimmedPhi (P : Physics) (d : RawData) : List (List Int) :=
  filter_events (baselineMask P d) (selectedPhi P d)

/-- The event-filtered `fatJetM`. -/
def skimmedM (P : Physics) (d : RawData) : List (List Int) :=
  filter_events (baselineMask P d) (selectedM P d)

/-- The guarded derived-column block of `process_events`
(`sumFatJetM`, `passSR4J`, `passSR5J`, `passSR`): when at least one event
passes baseline, the vectorized computations over the event-filtered
columns; otherwise the explicit empty placeholders `np.zeros(0)` /
`np.zeros(0, dtype=np.bool)`. (`numFatJet` and `fatJetDEta12` are computed
but not stored in the skim dict.) -/
def srColumns (P : Physics) (d : RawData) :
    List Int × List Bool × List Bool × List Bool :=
  if 0 < nBaseline P d then
    let numFatJet := (skimmedPt P d).map List.length
    let sumFatJetM := (skimmedM P d).map P.sum_fatjet_mass
    let fatJetDEta12 := (skimmedEta P d).map P.fatjet_deta12
    let passSR4J := zipWith3 P.pass_sr4j numFatJet sumFatJetM fatJetDEta12
    let passSR5J := zipWith3 P.pass_sr5j numFatJet sumFatJetM fatJetDEta12
    let passSR := List.zipWith (fun a b => a || b) passSR4J passSR5J
    (sumFatJetM, passSR4J, passSR5J, passSR)
  else ([], [], [], [])

/-- The skim dict produced by `process_events`: the four event-filtered jet
columns, the derived columns, the remaining reader columns skimmed by the
baseline mask (`data[k][skimIdx]`), and the two length-1 bookkeeping
columns. -/
structure SkimData where
  fatJetPt : List (List Int)
  fatJetEta : List (List Int)
  fatJetPhi : List (List Int)
  fatJetM : List (List Int)
  sumFatJetM : List Int
  passSR4J : List Bool
  passSR5J : List Bool
  passSR : List Bool
  eventNumber : List Int
  proc : List Int
  clusEta : List (List Int)
  clusPhi : List (List Int)
  clusE : List (List Int)
  clusEM : List (List Int)
  trackPt : List (List Int)
  trackEta : List (List Int)
  trackPhi : List (List Int)
  totalEvents : List Int
  skimEvents : List Int
  deriving DecidableEq

/-- The successful-path computation of `process_events` (lines 82-118). -/
def skimOf (P : Physics) (d : RawData) : SkimData :=
  { fatJetPt := skimmedPt P d
    fatJetEta := skimmedEta P d
    fatJetPhi := skimmedPhi P d
    fatJetM := skimmedM P d
    sumFatJetM := (srColumns P d).1
    passSR4J := (srColumns P d).2.1
    passSR5J := (srColumns P d).2.2.1
    passSR := (srColumns P d).2.2.2
    eventNumber := filter_events (baselineMask P d) d.eventNumber
    proc := filter_events (baselineMask P d) d.proc
    clusEta := filter_events (baselineMask P d) d.clusEta
    clusPhi := filter_events (baselineMask P d) d.clusPhi
    clusE := filter_events (baselineMask P d) d.clusE
    clusEM := filter_events (baselineMask P d) d.clusEM
    trackPt := filter_events (baselineMask P d) d.trackPt
    trackEta := filter_events (baselineMask P d) d.trackEta
    trackPhi := filter_events (baselineMask P d) d.trackPhi
    totalEvents := [((baselineMask P d).length : Int)]
    skimEvents := [(nBaseline P d : Int)] }

/-- `process_events(data)`: the baseline-mask computation
`np.vectorize(is_baseline_event)(fatJetPt)` has no `otypes` argument, so
numpy raises `ValueError` when its input (the object-filtered jet-pt array,
whose size is the number of events in the file) has size 0; otherwise the
skim dict is produced. -/
def process_events (P : Physics) (d : RawData) : Except PyErr SkimData :=
  if (selectedPt P d).isEmpty then .error .valueError
  else .ok (skimOf P d)

/-- The seventeen per-event columns of the skim dict — the table produced by
the filtering step, before the bookkeeping columns are attached. (A dict is
unordered; the association-list order here is fixed once and for all.) -/
def SkimData.eventColumns (s : SkimData) : Table :=
  [("fatJetPt", s.fatJetPt.map Val.r),
   ("fatJetEta", s.fatJetEta.map Val.r),
   ("fatJetPhi", s.fatJetPhi.map Val.r),
   ("fatJetM", s.fatJetM.map Val.r),
   ("sumFatJetM", s.sumFatJetM.map Val.i),
   ("passSR4J", s.passSR4J.map Val.b),
   ("passSR5J", s.passSR5J.map Val.b),
   ("passSR", s.passSR.map Val.b),
   ("eventNumber", s.eventNumber.map Val.i),
   ("proc", s.proc.map Val.i),
   ("clusEta", s.clusEta.map Val.r),
   ("clusPhi", s.clusPhi.map Val.r),
   ("clusE", s.clusE.map Val.r),
   ("clusEM", s.clusEM.map Val.r),
   ("trackPt", s.trackPt.map Val.r),
   ("trackEta", s.trackEta.map Val.r),
   ("trackPhi", s.trackPhi.map Val.r)]

/-- The full skim dict as a table: the per-event columns plus the two
length-1 bookkeeping columns `totalEvents` and `skimEvents`. -/
def SkimData.toTable (s : SkimData) : Table :=
  s.eventColumns ++
  [("totalEvents", s.totalEvents.map Val.i),
   ("skimEvents", s.skimEvents.map Val.i)]

/-- The characters of `l` before the first occurrence of `c`. -/
def takeUntilChar (c : Char) : List Char → List Char
  | [] => []
  | x :: xs => if x = c then [] else x :: takeUntilChar c xs

/-- `os.path.basename`: the component after the last path separator. -/
def basename (p : String) : String := ⟨(takeUntilChar '/' p.data.reverse).reverse⟩

/-- The sample identifier of a file: the base name up to the first `-`
(`os.path.basename(filename).split('-')[0]` in `get_xsec`). -/
def sampleOf (p : String) : String := ⟨takeUntilChar '-' (basename p).data⟩

/-- The loaded cross-section reference table: sample identifier to cross
section (`XsecMap._xsecMap`, a dict loaded once from
`data/cross_sections.txt`). -/
abbrev XsecMap := List (String × Int)

/-- Dictionary lookup in the cross-section map. -/
def lookupXsec (xm : XsecMap) (s : String) : Option Int :=
  (xm.find? (fun q => q.1 == s)).map Prod.snd

/-- `get_xsec(filename)`: parse the sample identifier and look it up in the
cross-section map; an absent identifier raises `KeyError`
(`XsecMap.get_xsec`'s `cls._xsecMap[sample]`). -/
def get_xsec (xm : XsecMap) (path : String) : Except PyErr Int :=
  match lookupXsec xm (sampleOf path) with
  | some x => .ok x
  | none => .error (.keyError (sampleOf path))

/-- The behaviour of the external reader `root_numpy.root2array` on one
input file: either it raises `IOError`, or it yields the thirteen remapped
columns. -/
inductive ReadOutcome where
  | ioError
  | ok (d : RawData)
  deriving DecidableEq

/-- `get_data(files, branch_dict, ...)`: calls the external reader and
converts the structured array into the dict of remapped columns; an
`IOError` is caught, logged, and `None` is returned. -/
def get_data (outcome : ReadOutcome) : Option RawData :=
  match outcome with
  | .ioError => none
  | .ok d => some d

/-- One input file of the batch: its path and the external reader's
behaviour on it. -/
structure FileJob where
  path : String
  read : ReadOutcome
  deriving DecidableEq

/-- Attaching the per-file metadata in `filter_delphes_to_numpy`: the source
file's base name (`skimData['inputFile']`) and its cross section
(`skimData['xsec']`), each a length-1 column. -/
def attachMeta (s : SkimData) (path : String) (x : Int) : Table :=
  s.toTable ++
  [("inputFile", [Val.s (basename path)]),
   ("xsec", [Val.i x])]

/-- `filter_delphes_to_numpy(root_file, max_events)`: read via `get_data`
(short-circuiting to the `None` sentinel when the read failed), apply
`process_events`, then attach the file name and the cross section. A raised
exception (`ValueError` from `process_events` on an empty file, `KeyError`
from the cross-section lookup) propagates out. -/
def filter_delphes_to_numpy (P : Physics) (xm : XsecMap) (j : FileJob) :
    Except PyErr (Option Table) :=
  match get_data j.read with
  | none => .ok none
  | some d =>
    match process_events P d with
    | .error e => .error e
    | .ok s =>
      match get_xsec xm j.path with
      | .error e => .error e
      | .ok x => .ok (some (attachMeta s j.path x))

/-- The result-collection step of `process_files_parallel`:
`[r.get() for r in parallel_results]` gathers each worker's result in input
order, re-raising the first worker exception encountered. -/
def collectResults (P : Physics) (xm : XsecMap) (jobs : List FileJob) :
    Except PyErr (List (Option Table)) :=
  match jobs with
  | [] => .ok []
  | j :: rest =>
    match filter_delphes_to_numpy P xm j with
    | .error e => .error e
    | .ok r =>
      match collectResults P xm rest with
      | .error e => .error e
      | .ok rs => .ok (r :: rs)

/-- `process_files_parallel(input_files, ...)`: fan out the per-file
processor over the batch, collect the results, and merge them. -/
def process_files_parallel (P : Physics) (xm : XsecMap) (jobs : List FileJob) :
    Except PyErr Table :=
  match collectResults P xm jobs with
  | .error e => .error e
  | .ok rs => merge_results rs

/-- Summing a column as `np.sum` does on the integer bookkeeping columns
(non-numeric cells contribute nothing; the columns involved hold only
`Val.i` cells). -/
def colSumInt (c : Col) : Int :=
  (c.map (fun v => match v with | .i n => n | _ => 0)).sum

/-- How a run of `main` ends after the merge: the early, non-error exit when
no events survived skimming, or a normal completion carrying the merged
dataset that is written to the output file. -/
inductive Outcome where
  | earlyExit
  | wrote (t : Table)
  deriving DecidableEq

/-- The post-argument-parsing body of `main`: merge the batch, then read
`data['skimEvents']` (a plain dict subscript, raising `KeyError` when the
key is absent) and either exit early on a zero sum or proceed to write the
output. -/
def main_model (P : Physics) (xm : XsecMap) (jobs : List FileJob) :
    Except PyErr Outcome :=
  match process_files_parallel P xm jobs with
  | .error e => .error e
  | .ok data =>
    match data.find? "skimEvents" with
    | none => .error (.keyError "skimEvents")
    | some c => if colSumInt c = 0 then .ok .earlyExit else .ok (.wrote data)

/-! ### Concrete instances used to exercise the definitions -/

/-- A physics instance whose object selector keeps every jet. -/
def keepAll : Physics :=
  { select_fatjets := fun pt _ => List.range pt.length
    sum_fatjet_mass := fun l => l.sum
    fatjet_deta12 := fun l => l.headD 0
    pass_sr4j := fun n _ _ => decide (4 ≤ n)
    pass_sr5j := fun n _ _ => decide (5 ≤ n) }

/-- A physics instance whose object selector rejects every jet. -/
def dropAll : Physics :=
  { select_fatjets := fun _ _ => []
    sum_fatjet_mass := fun l => l.sum
    fatjet_deta12 := fun _ => 0
    pass_sr4j := fun _ _ _ => false
    pass_sr5j := fun _ _ _ => false }

/-- A physics instance whose object selector keeps the leading jet exactly
when the event has at least two jets. -/
def twoJetSel : Physics :=
  { select_fatjets := fun pt _ => if 2 ≤ pt.length then [0] else []
    sum_fatjet_mass := fun l => l.sum
    fatjet_deta12 := fun _ => 0
    pass_sr4j := fun _ _ _ => false
    pass_sr5j := fun _ _ _ => true }

/-- A three-event input file with one jet per event. -/
def rawA : RawData :=
  { eventNumber := [1, 2, 3]
    proc := [0, 0, 0]
    clusEta := [[1], [2], [3]]
    clusPhi := [[1], [2], [3]]
    clusE := [[9], [9], [9]]
    clusEM := [[4], [4], [4]]
    fatJetPt := [[100], [200], [300]]
    fatJetEta := [[1], [1], [1]]
    fatJetPhi := [[2], [2], [2]]
    fatJetM := [[50], [60], [70]]
    trackPt := [[5], [6], [7]]
    trackEta := [[1], [1], [1]]
    trackPhi := [[2], [2], [2]] }

/-- A three-event input file whose first and third events have two jets and
whose second event has a single jet. -/
def rawB : RawData :=
  { eventNumber := [10, 20, 30]
    proc := [1, 1, 1]
    clusEta := [[1], [2], [3]]
    clusPhi := [[1], [2], [3]]
    clusE := [[9], [9], [9]]
    clusEM := [[4], [4], [4]]
    fatJetPt := [[5, 6], [7], [8, 9]]
    fatJetEta := [[1, 1], [2], [3, 3]]
    fatJetPhi := [[2, 2], [3], [4, 4]]
    fatJetM := [[40, 41], [42], [43, 44]]
    trackPt := [[5], [6], [7]]
    trackEta := [[1], [1], [1]]
    trackPhi := [[2], [2], [2]] }

/-- An input file from which the reader returned zero events. -/
def rawEmpty : RawData :=
  { eventNumber := [], proc := [], clusEta := [], clusPhi := [], clusE := []
    clusEM := [], fatJetPt := [], fatJetEta := [], fatJetPhi := []
    fatJetM := [], trackPt := [], trackEta := [], trackPhi := [] }

/-- A cross-section reference table knowing only the sample `sampleA`. -/
def xmA : XsecMap := [("sampleA", 7)]

/-- A two-column per-file result table. -/
def tA : Table := [("a", [Val.i 1]), ("b", [Val.i 2])]

/-- A second table with the same key set as `tA`. -/
def tB : Table := [("a", [Val.i 3]), ("b", [Val.i 4])]

/-- A table whose key set diverges from `tA` (it lacks `a`). -/
def tC : Table := [("b", [Val.i 9])]

/-- Two same-keyed results with a failure sentinel interspersed. -/
def dictsUniform : List (Option Table) := [some tA, none, some tB]

/-- Two results with divergent key sets and a failure sentinel. -/
def dictsDivergent : List (Option Table) := [some tA, none, some tC]

/-- The fixed key list of every successful per-file result: the seventeen
per-event columns, the two bookkeeping counters, and the two metadata
columns attached by `filter_delphes_to_numpy`. -/
def resultKeys : List String :=
  ["fatJetPt", "fatJetEta", "fatJetPhi", "fatJetM", "sumFatJetM",
   "passSR4J", "passSR5J", "passSR", "eventNumber", "proc",
   "clusEta", "clusPhi", "clusE", "clusEM",
   "trackPt", "trackEta", "trackPhi",
   "totalEvents", "skimEvents", "inputFile", "xsec"]

/-- A two-file batch of successfully read inputs: raw data, path, and the
cross section found for the path's sample. -/
def inputsC10 : List (RawData × String × Int) :=
  [(rawA, "data/sampleA-01.root", 7), (rawB, "data/sampleA-02.root", 7)]

/-- The read succeeded nonempty, or failed: the condition under which the
per-file processor cannot hit the `np.vectorize` size-0 `ValueError`
(see `process_events`). -/
def nonemptyRead (P : Physics) : ReadOutcome → Prop
  | .ioError => True
  | .ok d => (selectedPt P d).isEmpty = false

instance (P : Physics) (r : ReadOutcome) : Decidable (nonemptyRead P r) := by
  cases r with
  | ioError => exact .isTrue trivial
  | ok d => exact (inferInstance : Decidable ((selectedPt P d).isEmpty = false))

/-! ### Helper lemmas: concatenation and merging -/

@[simp] lemma concatAll_nil {α : Type} : concatAll ([] : List (List α)) = [] := rfl

@[simp] lemma concatAll_cons {α : Type} (l : List α) (ls : List (List α)) :
    concatAll (l :: ls) = l ++ concatAll ls := rfl

lemma mem_concatAll {α : Type} {x : α} {ls : List (List α)} :
    x ∈ concatAll ls ↔ ∃ l ∈ ls, x ∈ l := by
  induction ls with
  | nil => simp
  | cons l ls ih => simp [ih]

/-- Dropping the empty tables does not change a concatenation whose
per-table contribution is empty on the empty table. -/
lemma concatAll_map_filter_nonempty {α : Type} (f : Table → List α)
    (hf : f [] = []) (ds : List Table) :
    concatAll ((ds.filter (fun d => !d.isEmpty)).map f) = concatAll (ds.map f) := by
  induction ds with
  | nil => rfl
  | cons d rest ih =>
    by_cases hd : d = []
    · subst hd
      simp [List.filter_cons, hf, ih]
    · have : (!d.isEmpty) = true := by
        simp [List.isEmpty_eq_false.mpr hd]
      simp [List.filter_cons, this, ih]

lemma keys_ne_nil_of_mem {k : String} {t : Table} (h : k ∈ Table.keys t) :
    t ≠ [] := by
  intro ht
  subst ht
  simp [Table.keys] at h

lemma find?_eq_none_of_not_mem_keys {k : String} {t : Table}
    (h : k ∉ Table.keys t) : t.find? k = none := by
  unfold Table.find?
  rw [List.find?_eq_none.mpr]
  · rfl
  · intro p hp hbeq
    have h' : p.1 = k := by simpa using hbeq
    exact h (h' ▸ List.mem_map.mpr ⟨p, hp, rfl⟩)

lemma find?_isSome_of_mem_keys {k : String} {t : Table}
    (h : k ∈ Table.keys t) : (t.find? k).isSome = true := by
  unfold Table.find?
  rcases List.mem_map.mp h with ⟨p, hp, hk⟩
  rw [Option.isSome_map']
  exact List.find?_isSome.mpr ⟨p, hp, by simp [hk]⟩

lemma collectCols_ok {ds : List Table} {k : String}
    (h : ∀ d ∈ ds, (d.find? k).isSome = true) :
    collectCols ds k = .ok (ds.map (fun d => (d.find? k).getD [])) := by
  induction ds with
  | nil => rfl
  | cons d rest ih =>
    rcases Option.isSome_iff_exists.mp (h d (by simp)) with ⟨c, hc⟩
    simp only [collectCols, hc, ih (fun d hd => h d (by simp [hd])), List.map_cons]
    simp [hc]

lemma collectCols_err {ds : List Table} {d : Table} {k : String}
    (hd : d ∈ ds) (hfind : d.find? k = none) :
    collectCols ds k = .error (.keyError k) := by
  induction ds with
  | nil => simp at hd
  | cons d' rest ih =>
    rcases List.mem_cons.mp hd with h | h
    · subst h
      simp [collectCols, hfind]
    · unfold collectCols
      cases hfd : d'.find? k with
      | none => rfl
      | some c => simp [ih h]

lemma mergeLoop_ok {ds : List Table} {keys : List String}
    (hne : ds ≠ [])
    (h : ∀ k ∈ keys, ∀ d ∈ ds, (d.find? k).isSome = true) :
    mergeLoop ds keys =
      .ok (keys.map (fun k => (k, concatAll (ds.map (fun d => (d.find? k).getD []))))) := by
  induction keys with
  | nil => rfl
  | cons k rest ih =>
    have hcc := collectCols_ok (h k (by simp))
    have harr : (ds.map (fun d => (d.find? k).getD [])).isEmpty = false := by
      cases ds with
      | nil => exact absurd rfl hne
      | cons d rest' => rfl
    simp only [mergeLoop, hcc, harr, Bool.false_eq_true, if_false,
      ih (fun k' hk' d hd => h k' (by simp [hk']) d hd), List.map_cons]

lemma mergeLoop_err {ds : List Table} {keys : List String} {d : Table} {k : String}
    (hk : k ∈ keys) (hd : d ∈ ds) (hfind : d.find? k = none) :
    ∃ e, mergeLoop ds keys = .error e := by
  induction keys with
  | nil => simp at hk
  | cons k' rest ih =>
    unfold mergeLoop
    cases hcc : collectCols ds k' with
    | error e => exact ⟨e, rfl⟩
    | ok arrs =>
      by_cases hkk : k' = k
      · subst hkk
        rw [collectCols_err hd hfind] at hcc
        cases hcc
      · have hk' : k ∈ rest := by
          rcases List.mem_cons.mp hk with h | h
          · exact absurd h.symm hkk
          · exact h
        by_cases he : arrs.isEmpty
        · exact ⟨.valueError, by simp [he]⟩
        · rcases ih hk' with ⟨e, hml⟩
          exact ⟨e, by simp [he, hml]⟩

lemma merge_results_eq (dicts : List (Option Table)) :
    merge_results dicts =
      mergeLoop ((survivors dicts).filter (fun d => !d.isEmpty)) (unionKeys dicts) := by
  have hdef : merge_results dicts =
      mergeLoop ((dicts.filterMap id).filter (fun d => !d.isEmpty))
        (concatAll (((dicts.filterMap id).filter (fun d => !d.isEmpty)).map Table.keys)).dedup :=
    rfl
  rw [hdef]
  unfold survivors unionKeys
  rw [concatAll_map_filter_nonempty Table.keys rfl]
  rfl

lemma unionKeys_eq_nil {dicts : List (Option Table)}
    (hds : (survivors dicts).filter (fun d => !d.isEmpty) = []) :
    unionKeys dicts = [] := by
  unfold unionKeys
  rw [List.dedup_eq_nil]
  rw [List.eq_nil_iff_forall_not_mem]
  intro k hk
  rcases mem_concatAll.mp hk with ⟨l, hl, hkl⟩
  rcases List.mem_map.mp hl with ⟨d, hd, rfl⟩
  have hne : d ≠ [] := keys_ne_nil_of_mem hkl
  have : d ∈ (survivors dicts).filter (fun d => !d.isEmpty) :=
    List.mem_filter.mpr ⟨hd, by simp [List.isEmpty_eq_false.mpr hne]⟩
  rw [hds] at this
  simp at this

/-- When every surviving result holds every key of the union (uniform
column-key sets), `merge_results` succeeds and returns exactly the
per-key in-order concatenation. -/
theorem merge_results_uniform (dicts : List (Option Table))
    (h : ∀ d ∈ survivors dicts, ∀ k ∈ unionKeys dicts, (d.find? k).isSome = true) :
    merge_results dicts = .ok (mergeConcat dicts) := by
  rw [merge_results_eq]
  by_cases hds : (survivors dicts).filter (fun d => !d.isEmpty) = []
  · rw [unionKeys_eq_nil hds]
    simp [mergeConcat, unionKeys_eq_nil hds, mergeLoop]
  · have h' : ∀ k ∈ unionKeys dicts,
        ∀ d ∈ (survivors dicts).filter (fun d => !d.isEmpty), (d.find? k).isSome = true :=
      fun k hk d hd => h d (List.mem_of_mem_filter hd) k hk
    rw [mergeLoop_ok hds h']
    unfold mergeConcat
    congr 1
    apply List.map_congr_left
    intro k _
    rw [concatAll_map_filter_nonempty (fun d => (d.find? k).getD []) rfl]

/-! ### Helper lemmas: column lengths through the skim pipeline -/

lemma length_filter_objects (idx : List (List Nat)) (col : List (List Int)) :
    (filter_objects idx col).length = min idx.length col.length := by
  simp [filter_objects, List.length_zipWith]

lemma filter_events_length {α : Type} :
    ∀ (mask : List Bool) (xs : List α), mask.length = xs.length →
      (filter_events mask xs).length = mask.count true
  | [], xs, _ => by simp [filter_events]
  | b :: bs, [], h => by simp at h
  | b :: bs, x :: xs, h => by
    have h' : bs.length = xs.length := by simpa using h
    cases b with
    | true =>
      simp only [filter_events, List.zip_cons_cons, List.filter_cons, List.count_cons]
      simpa [filter_events] using filter_events_length bs xs h'
    | false =>
      simp only [filter_events, List.zip_cons_cons, List.filter_cons, List.count_cons]
      simpa [filter_events] using filter_events_length bs xs h'

lemma zipWith3_length {α β γ δ : Type} (f : α → β → γ → δ) :
    ∀ (as : List α) (bs : List β) (cs : List γ),
      (zipWith3 f as bs cs).length = min as.length (min bs.length cs.length)
  | [], _, _ => by simp [zipWith3]
  | _ :: _, [], _ => by simp [zipWith3]
  | _ :: _, _ :: _, [] => by simp [zipWith3]
  | a :: as, b :: bs, c :: cs => by
    simp only [zipWith3, List.length_cons, zipWith3_length f as bs cs]
    omega

lemma jetIdx_length {P : Physics} {d : RawData} {n : Nat} (h : d.uniform n) :
    (jetIdx P d).length = n := by
  obtain ⟨-, -, -, -, -, -, h7, h8, -, -, -, -, -⟩ := h
  simp [jetIdx, List.length_zipWith, h7, h8]

lemma selectedPt_length {P : Physics} {d : RawData} {n : Nat} (h : d.uniform n) :
    (selectedPt P d).length = n := by
  have h7 := h.2.2.2.2.2.2.1
  simp [selectedPt, length_filter_objects, jetIdx_length h, h7]

lemma selectedEta_length {P : Physics} {d : RawData} {n : Nat} (h : d.uniform n) :
    (selectedEta P d).length = n := by
  have h8 := h.2.2.2.2.2.2.2.1
  simp [selectedEta, length_filter_objects, jetIdx_length h, h8]

lemma selectedPhi_length {P : Physics} {d : RawData} {n : Nat} (h : d.uniform n) :
    (selectedPhi P d).length = n := by
  have h9 := h.2.2.2.2.2.2.2.2.1
  simp [selectedPhi, length_filter_objects, jetIdx_length h, h9]

lemma selectedM_length {P : Physics} {d : RawData} {n : Nat} (h : d.uniform n) :
    (selectedM P d).length = n := by
  have h10 := h.2.2.2.2.2.2.2.2.2.1
  simp [selectedM, length_filter_objects, jetIdx_length h, h10]

lemma baselineMask_length {P : Physics} {d : RawData} {n : Nat} (h : d.uniform n) :
    (baselineMask P d).length = n := by
  simp [baselineMask, selectedPt_length h]

lemma skimmedPt_length {P : Physics} {d : RawData} {n : Nat} (h : d.uniform n) :
    (skimmedPt P d).length = nBaseline P d :=
  filter_events_length _ _ ((baselineMask_length h).trans (selectedPt_length h).symm)

lemma skimmedEta_length {P : Physics} {d : RawData} {n : Nat} (h : d.uniform n) :
    (skimmedEta P d).length = nBaseline P d :=
  filter_events_length _ _ ((baselineMask_length h).trans (selectedEta_length h).symm)

lemma skimmedPhi_length {P : Physics} {d : RawData} {n : Nat} (h : d.uniform n) :
    (skimmedPhi P d).length = nBaseline P d :=
  filter_events_length _ _ ((baselineMask_length h).trans (selectedPhi_length h).symm)

lemma skimmedM_length {P : Physics} {d : RawData} {n : Nat} (h : d.uniform n) :
    (skimmedM P d).length = nBaseline P d :=
  filter_events_length _ _ ((baselineMask_length h).trans (selectedM_length h).symm)

lemma srColumns_length {P : Physics} {d : RawData} {n : Nat} (h : d.uniform n) :
    (srColumns P d).1.length = nBaseline P d ∧
    (srColumns P d).2.1.length = nBaseline P d ∧
    (srColumns P d).2.2.1.length = nBaseline P d ∧
    (srColumns P d).2.2.2.length = nBaseline P d := by
  by_cases hpos : 0 < nBaseline P d
  · have hz : (zipWith3 P.pass_sr4j ((skimmedPt P d).map List.length)
        ((skimmedM P d).map P.sum_fatjet_mass)
        ((skimmedEta P d).map P.fatjet_deta12)).length = nBaseline P d := by
      simp [zipWith3_length, skimmedPt_length h, skimmedM_length h, skimmedEta_length h]
    have hz' : (zipWith3 P.pass_sr5j ((skimmedPt P d).map List.length)
        ((skimmedM P d).map P.sum_fatjet_mass)
        ((skimmedEta P d).map P.fatjet_deta12)).length = nBaseline P d := by
      simp [zipWith3_length, skimmedPt_length h, skimmedM_length h, skimmedEta_length h]
    refine ⟨?_, ?_, ?_, ?_⟩ <;>
      simp [srColumns, hpos, List.length_zipWith, skimmedM_length h, hz, hz']
  · have h0 : nBaseline P d = 0 := by omega
    refine ⟨?_, ?_, ?_, ?_⟩ <;> simp [srColumns, hpos, h0]

/-- Every per-event column of the skim dict has as many rows as there are
events passing the baseline mask. -/
lemma eventColumns_length {P : Physics} {d : RawData} {n : Nat} (h : d.uniform n) :
    ∀ kc ∈ (skimOf P d).eventColumns, kc.2.length = nBaseline P d := by
  obtain ⟨h1, h2, h3, h4, h5, h6, h7, h8, h9, h10, h11, h12, h13⟩ := h
  have hu : d.uniform n :=
    ⟨h1, h2, h3, h4, h5, h6, h7, h8, h9, h10, h11, h12, h13⟩
  have hmask := baselineMask_length (P := P) hu
  intro kc hkc
  obtain ⟨s1, s2, s3, s4⟩ := srColumns_length (P := P) hu
  simp only [SkimData.eventColumns, skimOf, List.mem_cons, List.not_mem_nil, or_false] at hkc
  rcases hkc with rfl | rfl | rfl | rfl | rfl | rfl | rfl | rfl | rfl | rfl | rfl
    | rfl | rfl | rfl | rfl | rfl | rfl
  · simpa using skimmedPt_length hu
  · simpa using skimmedEta_length hu
  · simpa using skimmedPhi_length hu
  · simpa using skimmedM_length hu
  · simpa using s1
  · simpa using s2
  · simpa using s3
  · simpa using s4
  · simpa using filter_events_length _ _ (hmask.trans h1.symm)
  · simpa using filter_events_length _ _ (hmask.trans h2.symm)
  · simpa using filter_events_length _ _ (hmask.trans h3.symm)
  · simpa using filter_events_length _ _ (hmask.trans h4.symm)
  · simpa using filter_events_length _ _ (hmask.trans h5.symm)
  · simpa using filter_events_length _ _ (hmask.trans h6.symm)
  · simpa using filter_events_length _ _ (hmask.trans h11.symm)
  · simpa using filter_events_length _ _ (hmask.trans h12.symm)
  · simpa using filter_events_length _ _ (hmask.trans h13.symm)

/-! ### Helper lemmas: dispatcher and per-file results -/

lemma collectResults_err {P : Physics} {xm : XsecMap} {jobs : List FileJob}
    {j : FileJob} {e : PyErr}
    (hj : j ∈ jobs) (he : filter_delphes_to_numpy P xm j = .error e) :
    ∃ e', collectResults P xm jobs = .error e' := by
  induction jobs with
  | nil => simp at hj
  | cons j' rest ih =>
    unfold collectResults
    cases hfd : filter_delphes_to_numpy P xm j' with
    | error e' => exact ⟨e', rfl⟩
    | ok r =>
      rcases List.mem_cons.mp hj with h | h
      · subst h
        rw [he] at hfd
        cases hfd
      · rcases ih h with ⟨e', hcr⟩
        exact ⟨e', by simp [hcr]⟩

lemma survivors_map_some (ts : List Table) : survivors (ts.map some) = ts := by
  unfold survivors
  induction ts with
  | nil => rfl
  | cons t ts ih => simp only [List.map_cons, List.filterMap_cons, id, ih]

lemma findPairMap {g : String → Col} {K : List String} {k : String} (hk : k ∈ K) :
    Table.find? (K.map (fun k' => (k', g k'))) k = some (g k) := by
  induction K with
  | nil => simp at hk
  | cons k' rest ih =>
    by_cases h : k' = k
    · subst h
      simp [Table.find?]
    · have hk'' : k ∈ rest := by
        rcases List.mem_cons.mp hk with h' | h'
        · exact absurd h'.symm h
        · exact h'
      unfold Table.find? at ih ⊢
      simp only [List.map_cons, List.find?_cons]
      have hbeq : (k' == k) = false := by simp [h]
      simp only [hbeq]
      exact ih hk''

lemma concatAll_singletons {α β : Type} (f : α → β) (l : List α) :
    concatAll (l.map (fun x => [f x])) = l.map f := by
  induction l with
  | nil => rfl
  | cons x xs ih => simp [ih]

lemma colSumInt_map_i {α : Type} (g : α → Int) (l : List α) :
    colSumInt (l.map (fun x => Val.i (g x))) = (l.map g).sum := by
  unfold colSumInt
  rw [List.map_map]
  rfl

lemma attachMeta_keys (s : SkimData) (p : String) (x : Int) :
    Table.keys (attachMeta s p x) = resultKeys := rfl

lemma attachMeta_find_total (s : SkimData) (p : String) (x : Int) :
    (attachMeta s p x).find? "totalEvents" = some (s.totalEvents.map Val.i) := rfl

lemma attachMeta_find_skim (s : SkimData) (p : String) (x : Int) :
    (attachMeta s p x).find? "skimEvents" = some (s.skimEvents.map Val.i) := rfl

lemma attachMeta_skim_total (P : Physics) (d : RawData) (p : String) (x : Int) :
    (((attachMeta (skimOf P d) p x).find? "totalEvents").getD []) =
      [Val.i (((baselineMask P d).length : Int))] := by
  rw [attachMeta_find_total]
  rfl

lemma attachMeta_skim_skim (P : Physics) (d : RawData) (p : String) (x : Int) :
    (((attachMeta (skimOf P d) p x).find? "skimEvents").getD []) =
      [Val.i ((nBaseline P d : Int))] := by
  rw [attachMeta_find_skim]
  rfl

/-- Merging a nonempty batch of per-file results, all carrying the fixed
result key set, succeeds, and the merged table maps each result key to the
in-order concatenation of the per-file columns. -/
lemma merge_resultKeys_find {ts : List Table} {k : String}
    (hkeys : ∀ t ∈ ts, Table.keys t = resultKeys)
    (hne : ts ≠ []) (hk : k ∈ resultKeys) :
    merge_results (ts.map some) = Except.ok (mergeConcat (ts.map some)) ∧
    (mergeConcat (ts.map some)).find? k =
      some (concatAll (ts.map (fun t => (t.find? k).getD []))) := by
  have hsurv := survivors_map_some ts
  have hAll : ∀ dd ∈ survivors (ts.map some),
      ∀ k' ∈ unionKeys (ts.map some), (dd.find? k').isSome = true := by
    intro dd hdd k' hk'
    rw [hsurv] at hdd
    unfold unionKeys at hk'
    rw [List.mem_dedup] at hk'
    rcases mem_concatAll.mp hk' with ⟨l, hl, hkl⟩
    rw [hsurv] at hl
    rcases List.mem_map.mp hl with ⟨t, htm, rfl⟩
    rw [hkeys t htm] at hkl
    exact find?_isSome_of_mem_keys (by rw [hkeys dd hdd]; exact hkl)
  obtain ⟨t0, ht0⟩ : ∃ t0, t0 ∈ ts := by
    cases ts with
    | nil => exact absurd rfl hne
    | cons a b => exact ⟨a, List.mem_cons_self a b⟩
  have hkU : k ∈ unionKeys (ts.map some) := by
    unfold unionKeys
    rw [List.mem_dedup]
    refine mem_concatAll.mpr ⟨Table.keys t0, ?_, ?_⟩
    · rw [hsurv]
      exact List.mem_map.mpr ⟨t0, ht0, rfl⟩
    · rw [hkeys t0 ht0]
      exact hk
  refine ⟨merge_results_uniform _ hAll, ?_⟩
  unfold mergeConcat
  rw [findPairMap hkU, hsurv]

/-! ### The claims -/

/-- C2: for every list of per-file results possibly containing failure
sentinels, `merge_results` first drops the sentinels, then computes the
union of all column keys present in the surviving results, and returns the
table mapping each such key to the concatenation, in input order, of that
key's per-file arrays. (The hypothesis states that every surviving result
carries every key of the union — true of all per-file results this program
produces, whose key set is fixed, and the caller obligation the spec
states for the merge.) -/
theorem claim_C2 (dicts : List (Option Table))
    (h : ∀ d ∈ survivors dicts, ∀ k ∈ unionKeys dicts, (d.find? k).isSome = true) :
    merge_results dicts = Except.ok (mergeConcat dicts) :=
  merge_results_uniform dicts h

/-- C2 witness: two same-keyed per-file results with one sentinel. -/
theorem claim_C2_witness :
    (∀ d ∈ survivors dictsUniform, ∀ k ∈ unionKeys dictsUniform,
      (d.find? k).isSome = true) ∧
    merge_results dictsUniform = Except.ok (mergeConcat dictsUniform) :=
  ⟨by decide, claim_C2 dictsUniform (by decide)⟩

/-- C5: merging a list consisting only of failure sentinels yields the
empty table (zero keys, hence zero rows for every key) and does not
raise. -/
theorem claim_C5 (dicts : List (Option Table)) (h : ∀ d ∈ dicts, d = none) :
    merge_results dicts = Except.ok ([] : Table) := by
  have hs : dicts.filterMap id = [] :=
    List.filterMap_eq_nil_iff.mpr (fun a ha => by rw [h a ha]; rfl)
  have hdef : merge_results dicts =
      mergeLoop ((dicts.filterMap id).filter (fun d => !d.isEmpty))
        (concatAll (((dicts.filterMap id).filter (fun d => !d.isEmpty)).map Table.keys)).dedup :=
    rfl
  rw [hdef, hs]
  rfl

/-- C5 witness: a list of two sentinels. -/
theorem claim_C5_witness :
    (∀ d ∈ ([none, none] : List (Option Table)), d = none) ∧
    merge_results ([none, none] : List (Option Table)) = Except.ok ([] : Table) :=
  ⟨by decide, claim_C5 [none, none] (by decide)⟩

/-- C8: when a column key is present in one surviving per-file result but
absent from another (per-file results are nonempty: they always carry the
bookkeeping columns), `merge_results` fails with an error instead of
zero-filling or dropping the key. -/
theorem claim_C8 (dicts : List (Option Table)) (d1 d2 : Table) (k : String)
    (h1 : d1 ∈ survivors dicts) (h2 : d2 ∈ survivors dicts)
    (hk1 : k ∈ Table.keys d1) (hk2 : k ∉ Table.keys d2) (hne2 : d2 ≠ []) :
    ∃ e, merge_results dicts = Except.error e := by
  rw [merge_results_eq]
  have hd2f : d2 ∈ (survivors dicts).filter (fun d => !d.isEmpty) :=
    List.mem_filter.mpr ⟨h2, by simp [List.isEmpty_eq_false.mpr hne2]⟩
  have hkU : k ∈ unionKeys dicts := by
    unfold unionKeys
    rw [List.mem_dedup]
    exact mem_concatAll.mpr ⟨Table.keys d1, List.mem_map.mpr ⟨d1, h1, rfl⟩, hk1⟩
  exact mergeLoop_err hkU hd2f (find?_eq_none_of_not_mem_keys hk2)

/-- C8 witness: `tA` has key `a`, `tC` lacks it, and the merge errors. -/
theorem claim_C8_witness :
    (tA ∈ survivors dictsDivergent ∧ tC ∈ survivors dictsDivergent ∧
      "a" ∈ Table.keys tA ∧ "a" ∉ Table.keys tC ∧ tC ≠ []) ∧
    ∃ e, merge_results dictsDivergent = Except.error e :=
  ⟨by decide,
   claim_C8 dictsDivergent tA tC "a" (by decide) (by decide) (by decide)
     (by decide) (by decide)⟩

/-- C3: for every (event-aligned) input table on which `process_events`
completes, every per-event column of the resulting table has length equal
to the number of events passing the baseline mask. -/
theorem claim_C3 (P : Physics) (d : RawData) (n : Nat) (s : SkimData)
    (h : d.uniform n) (hs : process_events P d = Except.ok s) :
    ∀ kc ∈ s.eventColumns, kc.2.length = (baselineMask P d).count true := by
  have hskim : s = skimOf P d := by
    unfold process_events at hs
    by_cases hemp : (selectedPt P d).isEmpty
    · simp [hemp] at hs
    · simp [hemp] at hs
      exact hs.symm
  subst hskim
  exact eventColumns_length (P := P) h

/-- C3 witness: the three-event file `rawB` under the `twoJetSel`
selector. -/
theorem claim_C3_witness :
    (RawData.uniform rawB 3 ∧
      process_events twoJetSel rawB = Except.ok (skimOf twoJetSel rawB)) ∧
    ∀ kc ∈ (skimOf twoJetSel rawB).eventColumns,
      kc.2.length = (baselineMask twoJetSel rawB).count true :=
  ⟨⟨by decide, rfl⟩, claim_C3 twoJetSel rawB 3 (skimOf twoJetSel rawB) (by decide) rfl⟩

/-- C6 counterexample: for a file in which zero events survive baseline
selection because the reader returned zero events, `process_events` does
not produce empty derived columns — it raises numpy's `ValueError`
(`np.vectorize` on a size-0 input without `otypes`, line 82). -/
theorem claim_C6_counterexample :
    process_events keepAll rawEmpty = Except.error PyErr.valueError := rfl

/-- C6 (amended): for every input file holding at least one event, if zero
events survive baseline selection then `process_events` completes and the
derived columns — `sumFatJetM` and the signal-region flags `passSR4J`,
`passSR5J`, `passSR` — are the empty placeholder arrays of the guarded
branch, instead of a vectorized computation over the empty input. -/
theorem claim_C6 (P : Physics) (d : RawData)
    (hne : (selectedPt P d).isEmpty = false)
    (h0 : nBaseline P d = 0) :
    process_events P d = Except.ok (skimOf P d) ∧
    (skimOf P d).sumFatJetM = [] ∧ (skimOf P d).passSR4J = [] ∧
    (skimOf P d).passSR5J = [] ∧ (skimOf P d).passSR = [] := by
  refine ⟨by simp [process_events, hne], ?_, ?_, ?_, ?_⟩ <;>
    simp [skimOf, srColumns, h0]

/-- C6 witness: a three-event file whose object selector rejects every
jet, so no event passes baseline. -/
theorem claim_C6_witness :
    ((selectedPt dropAll rawA).isEmpty = false ∧ nBaseline dropAll rawA = 0) ∧
    (process_events dropAll rawA = Except.ok (skimOf dropAll rawA) ∧
      (skimOf dropAll rawA).sumFatJetM = [] ∧ (skimOf dropAll rawA).passSR4J = [] ∧
      (skimOf dropAll rawA).passSR5J = [] ∧ (skimOf dropAll rawA).passSR = []) :=
  ⟨by decide, claim_C6 dropAll rawA (by decide) (by decide)⟩

/-- C7: for a three-event file where the object selector keeps at least
one object in the first and third events and none in the second, the
baseline mask is `[true, false, true]`, every per-event column of the
output has exactly 2 rows, and the bookkeeping columns satisfy
`skimEvents = [2]` and `totalEvents = [3]`. -/
theorem claim_C7 (P : Physics) (d : RawData) (l1 l2 l3 : List Int)
    (hu : d.uniform 3)
    (hsel : selectedPt P d = [l1, l2, l3])
    (h1 : l1 ≠ []) (h2 : l2 = []) (h3 : l3 ≠ []) :
    baselineMask P d = [true, false, true] ∧
    process_events P d = Except.ok (skimOf P d) ∧
    (∀ kc ∈ (skimOf P d).eventColumns, kc.2.length = 2) ∧
    (skimOf P d).skimEvents = [(2 : Int)] ∧
    (skimOf P d).totalEvents = [(3 : Int)] := by
  have hmask : baselineMask P d = [true, false, true] := by
    unfold baselineMask
    rw [hsel]
    simp [is_baseline_event, List.isEmpty_eq_false.mpr h1,
      List.isEmpty_eq_false.mpr h3, h2]
  have hcnt : nBaseline P d = 2 := by
    unfold nBaseline
    rw [hmask]
    rfl
  refine ⟨hmask, ?_, ?_, ?_, ?_⟩
  · have hemp : (selectedPt P d).isEmpty = false := by rw [hsel]; rfl
    simp [process_events, hemp]
  · intro kc hkc
    rw [eventColumns_length (P := P) hu kc hkc, hcnt]
  · show [(nBaseline P d : Int)] = [(2 : Int)]
    rw [hcnt]
    rfl
  · show [((baselineMask P d).length : Int)] = [(3 : Int)]
    rw [hmask]
    rfl

/-- C7 witness: `rawB` under `twoJetSel` keeps the leading jet in events
1 and 3 (two jets each) and nothing in event 2 (one jet). -/
theorem claim_C7_witness :
    (RawData.uniform rawB 3 ∧ selectedPt twoJetSel rawB = [[5], [], [8]] ∧
      ([5] : List Int) ≠ [] ∧ ([] : List Int) = [] ∧ ([8] : List Int) ≠ []) ∧
    (baselineMask twoJetSel rawB = [true, false, true] ∧
      process_events twoJetSel rawB = Except.ok (skimOf twoJetSel rawB) ∧
      (∀ kc ∈ (skimOf twoJetSel rawB).eventColumns, kc.2.length = 2) ∧
      (skimOf twoJetSel rawB).skimEvents = [(2 : Int)] ∧
      (skimOf twoJetSel rawB).totalEvents = [(3 : Int)]) :=
  ⟨by decide,
   claim_C7 twoJetSel rawB [5] [] [8] (by decide) (by decide) (by decide)
     (by decide) (by decide)⟩

/-- C1 counterexample: for an input path whose sample identifier is not in
the cross-section table (read succeeding), `filter_delphes_to_numpy`
neither returns a populated result nor the sentinel `None`: it raises
`KeyError`, falsifying the unconditional "returns either a populated
per-file result dictionary or `None`". -/
theorem claim_C1_counterexample :
    filter_delphes_to_numpy keepAll xmA ⟨"data/unknown-01.root", ReadOutcome.ok rawA⟩ =
      Except.error (PyErr.keyError "unknown") := rfl

/-- C1 (amended): for every input path whose sample identifier is present
in the cross-section table (and whose successful read is nonempty, see C6),
`filter_delphes_to_numpy` returns either a populated per-file result or the
failure sentinel `None`; in particular, when the external reader raises an
I/O error, the error is caught and `None` is returned, so a read failure
never propagates. -/
theorem claim_C1 (P : Physics) (xm : XsecMap) (j : FileJob)
    (hx : (lookupXsec xm (sampleOf j.path)).isSome = true)
    (hne : nonemptyRead P j.read) :
    (j.read = ReadOutcome.ioError → filter_delphes_to_numpy P xm j = Except.ok none) ∧
    (filter_delphes_to_numpy P xm j = Except.ok none ∨
      ∃ t, filter_delphes_to_numpy P xm j = Except.ok (some t)) := by
  constructor
  · intro hio
    simp [filter_delphes_to_numpy, get_data, hio]
  · cases hr : j.read with
    | ioError => exact Or.inl (by simp [filter_delphes_to_numpy, get_data, hr])
    | ok d =>
      right
      rcases Option.isSome_iff_exists.mp hx with ⟨x, hxv⟩
      have hd : (selectedPt P d).isEmpty = false := by
        have h' := hne
        rw [hr] at h'
        exact h'
      exact ⟨attachMeta (skimOf P d) j.path x,
        by simp [filter_delphes_to_numpy, get_data, hr, process_events, hd,
          get_xsec, hxv]⟩

/-- C1 witness: a known-sample file with a successful nonempty read. -/
theorem claim_C1_witness :
    ((lookupXsec xmA (sampleOf (FileJob.mk "data/sampleA-01.root"
        (ReadOutcome.ok rawA)).path)).isSome = true ∧
      nonemptyRead keepAll (FileJob.mk "data/sampleA-01.root"
        (ReadOutcome.ok rawA)).read) ∧
    ((FileJob.mk "data/sampleA-01.root" (ReadOutcome.ok rawA)).read =
        ReadOutcome.ioError →
      filter_delphes_to_numpy keepAll xmA
        (FileJob.mk "data/sampleA-01.root" (ReadOutcome.ok rawA)) = Except.ok none) ∧
    (filter_delphes_to_numpy keepAll xmA
        (FileJob.mk "data/sampleA-01.root" (ReadOutcome.ok rawA)) = Except.ok none ∨
      ∃ t, filter_delphes_to_numpy keepAll xmA
        (FileJob.mk "data/sampleA-01.root" (ReadOutcome.ok rawA)) =
          Except.ok (some t)) :=
  ⟨by decide,
   claim_C1 keepAll xmA (FileJob.mk "data/sampleA-01.root" (ReadOutcome.ok rawA))
     (by decide) (by decide)⟩

/-- C4: for an input file whose read succeeds (nonempty) but whose sample
identifier is absent from the cross-section table, the lookup fails with a
`KeyError` carrying the sample identifier, which propagates uncaught out of
`filter_delphes_to_numpy`; when such a file is in the batch, the
dispatcher's result collection re-raises it and the whole batch aborts with
an error instead of defaulting a cross section. -/
theorem claim_C4 (P : Physics) (xm : XsecMap) (jobs : List FileJob)
    (j : FileJob) (d : RawData)
    (hj : j ∈ jobs) (hr : j.read = ReadOutcome.ok d)
    (hsel : (selectedPt P d).isEmpty = false)
    (hx : lookupXsec xm (sampleOf j.path) = none) :
    filter_delphes_to_numpy P xm j = Except.error (PyErr.keyError (sampleOf j.path)) ∧
    (∃ e, process_files_parallel P xm jobs = Except.error e) ∧
    (∃ e, main_model P xm jobs = Except.error e) := by
  have hfd : filter_delphes_to_numpy P xm j =
      Except.error (PyErr.keyError (sampleOf j.path)) := by
    simp [filter_delphes_to_numpy, get_data, hr, process_events, hsel, get_xsec, hx]
  rcases collectResults_err hj hfd with ⟨e, he⟩
  exact ⟨hfd, ⟨e, by simp [process_files_parallel, he]⟩,
    ⟨e, by simp [main_model, process_files_parallel, he]⟩⟩

/-- C4 witness: a one-file batch whose sample `unknown` is not in the
cross-section table. -/
theorem claim_C4_witness :
    ((FileJob.mk "data/unknown-01.root" (ReadOutcome.ok rawA)) ∈
        [FileJob.mk "data/unknown-01.root" (ReadOutcome.ok rawA)] ∧
      (FileJob.mk "data/unknown-01.root" (ReadOutcome.ok rawA)).read =
        ReadOutcome.ok rawA ∧
      (selectedPt keepAll rawA).isEmpty = false ∧
      lookupXsec xmA (sampleOf (FileJob.mk "data/unknown-01.root"
        (ReadOutcome.ok rawA)).path) = none) ∧
    (filter_delphes_to_numpy keepAll xmA
        (FileJob.mk "data/unknown-01.root" (ReadOutcome.ok rawA)) =
      Except.error (PyErr.keyError (sampleOf (FileJob.mk "data/unknown-01.root"
        (ReadOutcome.ok rawA)).path)) ∧
      (∃ e, process_files_parallel keepAll xmA
        [FileJob.mk "data/unknown-01.root" (ReadOutcome.ok rawA)] =
          Except.error e) ∧
      (∃ e, main_model keepAll xmA
        [FileJob.mk "data/unknown-01.root" (ReadOutcome.ok rawA)] =
          Except.error e)) :=
  ⟨by decide,
   claim_C4 keepAll xmA [FileJob.mk "data/unknown-01.root" (ReadOutcome.ok rawA)]
     (FileJob.mk "data/unknown-01.root" (ReadOutcome.ok rawA)) rawA
     (by decide) (by decide) (by decide) (by decide)⟩

/-- C9: on the degenerate batch in which every input file fails to read,
the program does not terminate normally: `merge_results` returns the empty
dict, and `main`'s `data['skimEvents']` then raises `KeyError('skimEvents')`
— the code crashes where the claim (and the spec's degenerate-batch policy)
demands a normal, non-error termination. -/
theorem claim_C9 :
    main_model keepAll xmA
      [FileJob.mk "data/sampleA-01.root" ReadOutcome.ioError,
       FileJob.mk "data/sampleA-02.root" ReadOutcome.ioError] =
      Except.error (PyErr.keyError "skimEvents") := rfl

/-- C10: every successful per-file result carries the bookkeeping columns
`totalEvents` and `skimEvents` as length-1 arrays, so merging N successful
results yields `totalEvents` and `skimEvents` columns of length N, and the
merged `skimEvents` entries sum to the total number of baseline-surviving
events of the batch. -/
theorem claim_C10 (P : Physics) (inputs : List (RawData × String × Int))
    (hne : inputs ≠ [])
    (hok : ∀ j ∈ inputs, (selectedPt P j.1).isEmpty = false) :
    (∀ j ∈ inputs,
      process_events P j.1 = Except.ok (skimOf P j.1) ∧
      (skimOf P j.1).totalEvents.length = 1 ∧
      (skimOf P j.1).skimEvents.length = 1) ∧
    ∃ m, merge_results ((inputs.map
        (fun j => attachMeta (skimOf P j.1) j.2.1 j.2.2)).map some) = Except.ok m ∧
      (∃ ct, m.find? "totalEvents" = some ct ∧ ct.length = inputs.length) ∧
      (∃ cs, m.find? "skimEvents" = some cs ∧ cs.length = inputs.length ∧
        colSumInt cs = (inputs.map (fun j => (nBaseline P j.1 : Int))).sum) := by
  refine ⟨fun j hj => ⟨by simp [process_events, hok j hj], rfl, rfl⟩, ?_⟩
  have hkeys : ∀ t ∈ inputs.map (fun j => attachMeta (skimOf P j.1) j.2.1 j.2.2),
      Table.keys t = resultKeys := by
    intro t ht
    rcases List.mem_map.mp ht with ⟨j, -, rfl⟩
    exact attachMeta_keys _ _ _
  have hne' : inputs.map (fun j => attachMeta (skimOf P j.1) j.2.1 j.2.2) ≠ [] := by
    cases inputs with
    | nil => exact absurd rfl hne
    | cons a b => simp
  obtain ⟨hmerge, hfT⟩ :=
    merge_resultKeys_find hkeys hne' (show "totalEvents" ∈ resultKeys by decide)
  obtain ⟨-, hfS⟩ :=
    merge_resultKeys_find hkeys hne' (show "skimEvents" ∈ resultKeys by decide)
  have hT2 : concatAll ((inputs.map (fun j => attachMeta (skimOf P j.1) j.2.1 j.2.2)).map
      (fun t => (t.find? "totalEvents").getD [])) =
      inputs.map (fun j => Val.i (((baselineMask P j.1).length : Int))) := by
    rw [List.map_map]
    rw [List.map_congr_left
      (fun j _ => attachMeta_skim_total P j.1 j.2.1 j.2.2)]
    exact concatAll_singletons _ inputs
  have hS2 : concatAll ((inputs.map (fun j => attachMeta (skimOf P j.1) j.2.1 j.2.2)).map
      (fun t => (t.find? "skimEvents").getD [])) =
      inputs.map (fun j => Val.i ((nBaseline P j.1 : Int))) := by
    rw [List.map_map]
    rw [List.map_congr_left
      (fun j _ => attachMeta_skim_skim P j.1 j.2.1 j.2.2)]
    exact concatAll_singletons _ inputs
  refine ⟨_, hmerge,
    ⟨inputs.map (fun j => Val.i (((baselineMask P j.1).length : Int))), ?_, by simp⟩,
    ⟨inputs.map (fun j => Val.i ((nBaseline P j.1 : Int))), ?_, by simp, ?_⟩⟩
  · rw [hfT, hT2]
  · rw [hfS, hS2]
  · exact colSumInt_map_i _ inputs

/-- C10 witness: the two-file batch `inputsC10`. -/
theorem claim_C10_witness :
    (inputsC10 ≠ [] ∧
      ∀ j ∈ inputsC10, (selectedPt keepAll j.1).isEmpty = false) ∧
    ((∀ j ∈ inputsC10,
      process_events keepAll j.1 = Except.ok (skimOf keepAll j.1) ∧
      (skimOf keepAll j.1).totalEvents.length = 1 ∧
      (skimOf keepAll j.1).skimEvents.length = 1) ∧
    ∃ m, merge_results ((inputsC10.map
        (fun j => attachMeta (skimOf keepAll j.1) j.2.1 j.2.2)).map some) =
        Except.ok m ∧
      (∃ ct, m.find? "totalEvents" = some ct ∧ ct.length = inputsC10.length) ∧
      (∃ cs, m.find? "skimEvents" = some cs ∧ cs.length = inputsC10.length ∧
        colSumInt cs = (inputsC10.map
          (fun j => (nBaseline keepAll j.1 : Int))).sum)) :=
  ⟨⟨by decide, by decide⟩, claim_C10 keepAll inputsC10 (by decide) (by decide)⟩

end Rpvdl
